import Mathlib

/-!
Verification of the agent orchestration and resilience core of the
bolt-new-clone repository, shallowly embedded in Lean 4.

Conventions of the embedding:
* JavaScript numbers that hold timestamps or millisecond durations are
  modelled as `Int`; counters are `Nat`; latency samples and derived
  averages are `Rat` (so that the division in `getMetrics` is exact).
* Stateful classes become structures, and each method becomes a function
  from the old state (plus the current `Date.now()` value, passed as an
  explicit `now` argument) to the new state and result.
* Fallible methods return `Except`.
* `utils.ts` declares `enum AgentErrorType` with exactly the members
  VALIDATION, TIMEOUT, QUEUE_FULL, INTERNAL.  Several files (including
  `utils.ts` itself, `CircuitBreaker.ts` and `OrchestratorAgent.ts`)
  nevertheless refer to `AgentErrorType.OPERATION`; at runtime that member
  access yields `undefined`, which the embedding models as `none` in
  `Option AgentErrorType`.  Likewise the `AgentError` constructor declares
  only the two parameters `(type, message)`, so call sites that pass a
  third details argument (for example the `{ remainingTimeout }` object in
  `CircuitBreaker.checkState`) lose it: the constructed error object keeps
  no such field, and the embedded `AgentError` structure accordingly has
  only the `etype` and `message` fields.
-/

/-- The `AgentErrorType` enum exactly as declared in `src/agents/utils.ts`
(lines 16-21).  Note that it has no `OPERATION` member. -/
inductive AgentErrorType where
  | VALIDATION
  | TIMEOUT
  | QUEUE_FULL
  | INTERNAL
deriving DecidableEq, Repr

/-- Runtime value of the TypeScript expression `AgentErrorType.OPERATION`:
the enum declares no such member, so the member access evaluates to
`undefined`, modelled as `none`. -/
def AgentErrorTypeOPERATION : Option AgentErrorType := none

/-- `AgentError` from `src/agents/utils.ts` (lines 26-34).  The constructor
has exactly the parameters `(type, message)`; third arguments passed at
various call sites are discarded, so the structure carries no details
field. -/
structure AgentError where
  etype : Option AgentErrorType
  message : String
deriving DecidableEq, Repr

/-- `CircuitState` from `src/agents/CircuitBreaker.ts`. -/
inductive CircuitState where
  | CLOSED
  | OPEN
  | HALF_OPEN
deriving DecidableEq, Repr

/-- `CircuitBreakerConfig` from `src/agents/CircuitBreaker.ts`. -/
structure CircuitBreakerConfig where
  failureThreshold : Nat
  resetTimeout : Int
  halfOpenTimeout : Int
deriving DecidableEq, Repr

/-- The mutable fields of class `CircuitBreaker`. -/
structure CircuitBreaker where
  state : CircuitState
  failures : Nat
  lastFailureTime : Int
  lastStateChange : Int
deriving DecidableEq, Repr

namespace CircuitBreaker

/-- The `CircuitBreaker` constructor (`Date.now()` passed as `now`). -/
def init (now : Int) : CircuitBreaker :=
  { state := .CLOSED, failures := 0, lastFailureTime := 0, lastStateChange := now }

/-- `transitionTo` (CircuitBreaker.ts lines 130-137): set the state, stamp
`lastStateChange`, and reset `failures` when the new state is CLOSED. -/
def transitionTo (cb : CircuitBreaker) (newState : CircuitState) (now : Int) :
    CircuitBreaker :=
  { state := newState
    failures := if newState = .CLOSED then 0 else cb.failures
    lastFailureTime := cb.lastFailureTime
    lastStateChange := now }

/-- `checkState` (CircuitBreaker.ts lines 77-103).  In the OPEN branch the
code throws before any mutation, so the error case returns only the error;
a third `{ remainingTimeout: ... }` argument is passed at the throw site but
discarded by the two-parameter `AgentError` constructor. -/
def checkState (cfg : CircuitBreakerConfig) (cb : CircuitBreaker) (now : Int) :
    Except AgentError CircuitBreaker :=
  match cb.state with
  | .OPEN =>
    if cfg.resetTimeout ≤ now - cb.lastStateChange then
      .ok (cb.transitionTo .HALF_OPEN now)
    else
      .error { etype := AgentErrorTypeOPERATION, message := "Circuit breaker is OPEN" }
  | .HALF_OPEN =>
    if cfg.halfOpenTimeout ≤ now - cb.lastStateChange then
      .ok (cb.transitionTo .CLOSED now)
    else
      .ok cb
  | .CLOSED => .ok cb

/-- `onSuccess` (CircuitBreaker.ts lines 108-113). -/
def onSuccess (cb : CircuitBreaker) (now : Int) : CircuitBreaker :=
  let cb1 := if cb.state = .HALF_OPEN then cb.transitionTo .CLOSED now else cb
  { cb1 with failures := 0 }

/-- `onFailure` (CircuitBreaker.ts lines 118-125). -/
def onFailure (cfg : CircuitBreakerConfig) (cb : CircuitBreaker) (now : Int) :
    CircuitBreaker :=
  let cb1 := { cb with failures := cb.failures + 1, lastFailureTime := now }
  if cfg.failureThreshold ≤ cb1.failures then cb1.transitionTo .OPEN now else cb1

end CircuitBreaker

/-- Result of one `CircuitBreaker.execute` call: the new breaker state,
whether the wrapped operation was invoked, and the thrown error if any. -/
structure ExecResult where
  breaker : CircuitBreaker
  invoked : Bool
  err : Option AgentError
deriving DecidableEq, Repr

/-- `execute` (CircuitBreaker.ts lines 40-58).  The wrapped async operation
is abstracted by the Boolean `opSucceeds` telling whether it resolves or
rejects; `context` is the string tag passed by the caller. -/
def CircuitBreaker.execute (cfg : CircuitBreakerConfig) (cb : CircuitBreaker)
    (now : Int) (opSucceeds : Bool) (context : String) : ExecResult :=
  match cb.checkState cfg now with
  | .error e => { breaker := cb, invoked := false, err := some e }
  | .ok cb1 =>
    if opSucceeds then
      { breaker := cb1.onSuccess now, invoked := true, err := none }
    else
      { breaker := CircuitBreaker.onFailure cfg cb1 now, invoked := true
        err := some { etype := AgentErrorTypeOPERATION
                      message := "Circuit breaker: " ++ context ++ " failed" } }

/-- `HealthMetricsData` from `src/agents/HealthMetrics.ts`.  `successRate`
and `avgProcessingTime` are computed by exact division, so they live in
`Rat`. -/
structure HealthMetricsData where
  messageCount : Nat
  errorCount : Nat
  successRate : Rat
  avgProcessingTime : Rat
  lastProcessingTime : Rat
  lastErrorTime : Int
  lastSuccessTime : Int
deriving DecidableEq, Repr

/-- The mutable fields of class `HealthMetrics`
(`src/agents/HealthMetrics.ts` lines 31-38). -/
structure HealthMetrics where
  messageCount : Nat
  errorCount : Nat
  processingTimes : List Rat
  lastProcessingTime : Rat
  lastErrorTime : Int
  lastSuccessTime : Int
deriving DecidableEq, Repr

namespace HealthMetrics

/-- The `maxSamples` constant (HealthMetrics.ts line 35). -/
def maxSamples : Nat := 100

/-- Field initializers of class `HealthMetrics`. -/
def initState : HealthMetrics :=
  { messageCount := 0, errorCount := 0, processingTimes := []
    lastProcessingTime := 0, lastErrorTime := 0, lastSuccessTime := 0 }

/-- `addProcessingTime` (HealthMetrics.ts lines 96-101): push the sample,
then shift the oldest one out when the buffer exceeds `maxSamples`. -/
def addProcessingTime (times : List Rat) (t : Rat) : List Rat :=
  let pushed := times ++ [t]
  if maxSamples < pushed.length then pushed.tail else pushed

/-- `recordSuccess` (HealthMetrics.ts lines 43-48); `now` is `Date.now()`. -/
def recordSuccess (s : HealthMetrics) (t : Rat) (now : Int) : HealthMetrics :=
  { messageCount := s.messageCount + 1
    errorCount := s.errorCount
    processingTimes := addProcessingTime s.processingTimes t
    lastProcessingTime := t
    lastErrorTime := s.lastErrorTime
    lastSuccessTime := now }

/-- `recordError` (HealthMetrics.ts lines 53-59). -/
def recordError (s : HealthMetrics) (t : Rat) (now : Int) : HealthMetrics :=
  { messageCount := s.messageCount + 1
    errorCount := s.errorCount + 1
    processingTimes := addProcessingTime s.processingTimes t
    lastProcessingTime := t
    lastErrorTime := now
    lastSuccessTime := s.lastSuccessTime }

/-- `getMetrics` (HealthMetrics.ts lines 64-82). -/
def getMetrics (s : HealthMetrics) : HealthMetricsData :=
  { messageCount := s.messageCount
    errorCount := s.errorCount
    successRate :=
      if 0 < s.messageCount then
        ((s.messageCount : Rat) - (s.errorCount : Rat)) / (s.messageCount : Rat) * 100
      else 100
    avgProcessingTime :=
      if 0 < s.processingTimes.length then
        s.processingTimes.sum / (s.processingTimes.length : Rat)
      else 0
    lastProcessingTime := s.lastProcessingTime
    lastErrorTime := s.lastErrorTime
    lastSuccessTime := s.lastSuccessTime }

end HealthMetrics

/-- One call to `recordSuccess` or `recordError`, with its latency sample
and the wall-clock time of the call. -/
inductive RecordOp where
  | success (t : Rat) (now : Int)
  | error (t : Rat) (now : Int)
deriving DecidableEq, Repr

/-- The latency sample carried by a record operation. -/
def RecordOp.time : RecordOp → Rat
  | .success t _ => t
  | .error t _ => t

/-- Whether the operation is a `recordError` call. -/
def RecordOp.isError : RecordOp → Bool
  | .success _ _ => false
  | .error _ _ => true

/-- Apply one record operation to a `HealthMetrics` state. -/
def applyRecordOp (s : HealthMetrics) : RecordOp → HealthMetrics
  | .success t now => s.recordSuccess t now
  | .error t now => s.recordError t now

/-- Apply a sequence of record operations in order. -/
def applyRecordOps (s : HealthMetrics) (ops : List RecordOp) : HealthMetrics :=
  ops.foldl applyRecordOp s
/-- C1: CircuitBreaker lifecycle.  With `failureThreshold = 3` and a breaker
starting CLOSED, three consecutive failing `execute` calls leave the state
CLOSED after the first two failures and transition it to OPEN on the third;
while OPEN, an `execute` call before `resetTimeout` has elapsed since
entering OPEN is rejected without invoking the operation and leaves the
breaker unchanged; the first `execute` call at or after `resetTimeout`
transitions the state to HALF_OPEN (via `checkState`) and does invoke the
operation; and a successful operation while HALF_OPEN leaves the breaker
CLOSED with the failure counter reset to 0. -/
theorem c1_circuitBreaker_lifecycle :
    (∀ (cfg : CircuitBreakerConfig) (t0 t1 t2 t3 : Int) (ctx : String),
      cfg.failureThreshold = 3 →
      ((CircuitBreaker.init t0).execute cfg t1 false ctx).breaker.state = .CLOSED ∧
      ((((CircuitBreaker.init t0).execute cfg t1 false ctx).breaker.execute
          cfg t2 false ctx).breaker).state = .CLOSED ∧
      (((((CircuitBreaker.init t0).execute cfg t1 false ctx).breaker.execute
          cfg t2 false ctx).breaker.execute cfg t3 false ctx).breaker).state = .OPEN)
  ∧ (∀ (cfg : CircuitBreakerConfig) (cb : CircuitBreaker) (now : Int) (b : Bool)
      (ctx : String), cb.state = .OPEN →
      now - cb.lastStateChange < cfg.resetTimeout →
      (cb.execute cfg now b ctx).invoked = false ∧
      (cb.execute cfg now b ctx).breaker = cb)
  ∧ (∀ (cfg : CircuitBreakerConfig) (cb : CircuitBreaker) (now : Int) (b : Bool)
      (ctx : String), cb.state = .OPEN →
      cfg.resetTimeout ≤ now - cb.lastStateChange →
      (cb.execute cfg now b ctx).invoked = true ∧
      cb.checkState cfg now = .ok (cb.transitionTo .HALF_OPEN now) ∧
      (cb.transitionTo .HALF_OPEN now).state = .HALF_OPEN)
  ∧ (∀ (cfg : CircuitBreakerConfig) (cb : CircuitBreaker) (now : Int) (ctx : String),
      cb.state = .HALF_OPEN →
      (cb.execute cfg now true ctx).breaker.state = .CLOSED ∧
      (cb.execute cfg now true ctx).breaker.failures = 0) := by
  refine ⟨?_, ?_, ?_, ?_⟩
  · intro cfg t0 t1 t2 t3 ctx h
    simp [CircuitBreaker.execute, CircuitBreaker.checkState, CircuitBreaker.init,
      CircuitBreaker.onFailure, CircuitBreaker.transitionTo, h]
  · intro cfg cb now b ctx hstate hlt
    simp [CircuitBreaker.execute, CircuitBreaker.checkState, hstate,
      if_neg (not_le.mpr hlt)]
  · intro cfg cb now b ctx hstate hge
    constructor
    · cases b <;>
        simp [CircuitBreaker.execute, CircuitBreaker.checkState, hstate, if_pos hge]
    · constructor
      · simp [CircuitBreaker.checkState, hstate, if_pos hge]
      · simp [CircuitBreaker.transitionTo]
  · intro cfg cb now ctx hstate
    by_cases h : cfg.halfOpenTimeout ≤ now - cb.lastStateChange
    · simp [CircuitBreaker.execute, CircuitBreaker.checkState, hstate, if_pos h,
        CircuitBreaker.onSuccess, CircuitBreaker.transitionTo]
    · simp [CircuitBreaker.execute, CircuitBreaker.checkState, hstate, if_neg h,
        CircuitBreaker.onSuccess, CircuitBreaker.transitionTo, hstate]
/-- Witness for C1 at a concrete configuration
`failureThreshold = 3, resetTimeout = 30000, halfOpenTimeout = 15000`. -/
theorem c1_circuitBreaker_lifecycle_witness :
    (((((CircuitBreaker.init 0).execute ⟨3, 30000, 15000⟩ 1 false "op").breaker.execute
        ⟨3, 30000, 15000⟩ 2 false "op").breaker.execute
        ⟨3, 30000, 15000⟩ 3 false "op").breaker).state = .OPEN ∧
    ((CircuitBreaker.mk .OPEN 3 0 10).execute ⟨3, 30000, 15000⟩ 100 true "op").invoked
      = false ∧
    ((CircuitBreaker.mk .OPEN 3 0 10).execute ⟨3, 30000, 15000⟩ 30010 true "op").invoked
      = true ∧
    ((CircuitBreaker.mk .HALF_OPEN 2 0 10).execute
        ⟨3, 30000, 15000⟩ 20 true "op").breaker.state = .CLOSED :=
  ⟨(c1_circuitBreaker_lifecycle.1 _ 0 1 2 3 "op" rfl).2.2,
    (c1_circuitBreaker_lifecycle.2.1 _ _ 100 true "op" rfl (by decide)).1,
    (c1_circuitBreaker_lifecycle.2.2.1 _ _ 30010 true "op" rfl (by decide)).1,
    (c1_circuitBreaker_lifecycle.2.2.2 _ _ 20 "op" rfl).1⟩

/-- C2 (code bug, evaluated at the failing input): a breaker that is OPEN
with `resetTimeout` not yet elapsed (state OPEN, `lastStateChange = 0`,
call at `now = 1000`, `resetTimeout = 30000`) rejects the call without
invoking the wrapped operation — but the thrown error has `etype = none`,
the runtime value of the missing enum member `AgentErrorType.OPERATION`
(so its kind is not any member of `AgentErrorType`), and the error carries
no remaining-cooldown data: the two-parameter `AgentError` constructor of
utils.ts discards the `{ remainingTimeout }` argument built at the throw
site, so the embedded error consists of the type field and the message
alone. -/
theorem c2_open_rejection_error_shape :
    ((CircuitBreaker.mk .OPEN 3 0 0).execute ⟨3, 30000, 15000⟩ 1000 true "op").invoked
      = false ∧
    ((CircuitBreaker.mk .OPEN 3 0 0).execute ⟨3, 30000, 15000⟩ 1000 true "op").err
      = some { etype := none, message := "Circuit breaker is OPEN" } ∧
    (∀ t : AgentErrorType,
      ((CircuitBreaker.mk .OPEN 3 0 0).execute ⟨3, 30000, 15000⟩ 1000 true "op").err
        ≠ some { etype := some t, message := "Circuit breaker is OPEN" }) := by
  refine ⟨by decide, by decide, ?_⟩
  intro t
  cases t <;> decide
/-- The suffix of the most recent `n` entries of a list. -/
def lastN (n : Nat) (l : List Rat) : List Rat := l.drop (l.length - n)

theorem addProcessingTime_lastN (hist : List Rat) (t : Rat) :
    HealthMetrics.addProcessingTime (lastN 100 hist) t = lastN 100 (hist ++ [t]) := by
  unfold HealthMetrics.addProcessingTime lastN HealthMetrics.maxSamples
  rcases lt_or_le hist.length 100 with hk | hk
  · have h0 : hist.length - 100 = 0 := by omega
    have h1 : (hist ++ [t]).length - 100 = 0 := by simp; omega
    have hcond : ¬ 100 < (hist.drop (hist.length - 100) ++ [t]).length := by simp; omega
    rw [if_neg hcond, h0, h1]
    simp
  · have hlen : (hist.drop (hist.length - 100)).length = 100 := by simp; omega
    have hcond : 100 < (hist.drop (hist.length - 100) ++ [t]).length := by simp; omega
    rw [if_pos hcond]
    have hne : hist.drop (hist.length - 100) ≠ [] := by
      intro h
      rw [h] at hlen
      simp at hlen
    rw [List.tail_append_singleton_of_ne_nil hne, List.tail_drop]
    have h2 : (hist ++ [t]).length - 100 = hist.length - 100 + 1 := by simp; omega
    rw [h2, List.drop_append_of_le_length (by omega)]

theorem applyRecordOps_processingTimes (ops : List RecordOp) :
    ∀ (s : HealthMetrics) (hist : List Rat),
      s.processingTimes = lastN 100 hist →
      (applyRecordOps s ops).processingTimes = lastN 100 (hist ++ ops.map RecordOp.time) := by
  induction ops with
  | nil => intro s hist h; simpa [applyRecordOps] using h
  | cons op rest ih =>
    intro s hist h
    have hstep : (applyRecordOp s op).processingTimes = lastN 100 (hist ++ [op.time]) := by
      cases op <;>
        simp [applyRecordOp, HealthMetrics.recordSuccess, HealthMetrics.recordError,
          RecordOp.time, h, addProcessingTime_lastN]
    have := ih (applyRecordOp s op) (hist ++ [op.time]) hstep
    simpa [applyRecordOps, List.foldl_cons, RecordOp.time] using this

theorem applyRecordOps_messageCount (ops : List RecordOp) :
    ∀ s : HealthMetrics,
      (applyRecordOps s ops).messageCount = s.messageCount + ops.length := by
  induction ops with
  | nil => intro s; simp [applyRecordOps]
  | cons op rest ih =>
    intro s
    have := ih (applyRecordOp s op)
    have hone : (applyRecordOp s op).messageCount = s.messageCount + 1 := by
      cases op <;>
        simp [applyRecordOp, HealthMetrics.recordSuccess, HealthMetrics.recordError]
    simp only [applyRecordOps, List.foldl_cons] at this ⊢
    rw [this, hone]
    simp
    omega

theorem applyRecordOps_errorCount (ops : List RecordOp) :
    ∀ s : HealthMetrics,
      (applyRecordOps s ops).errorCount
        = s.errorCount + (ops.filter RecordOp.isError).length := by
  induction ops with
  | nil => intro s; simp [applyRecordOps]
  | cons op rest ih =>
    intro s
    have := ih (applyRecordOp s op)
    simp only [applyRecordOps, List.foldl_cons] at this ⊢
    rw [this]
    cases op
    · simp [applyRecordOp, HealthMetrics.recordSuccess, RecordOp.isError, List.filter_cons]
    · simp [applyRecordOp, HealthMetrics.recordError, RecordOp.isError, List.filter_cons]
      omega

/-- C3: HealthMetrics windowing and rates.  After any sequence of 150
record operations (any mix of `recordSuccess`/`recordError`) starting from
the initial state, exactly the most recent 100 latency samples are retained
and `getMetrics` averages exactly those 100; for every sequence of
operations, `messageCount` is the number of operations, `errorCount` the
number of `recordError` calls among them, and `successRate` is 100 when
`messageCount` is 0 and `(messageCount - errorCount) / messageCount * 100`
otherwise; `avgProcessingTime` is 0 whenever no samples are retained. -/
theorem c3_healthMetrics_window_and_rates :
    (∀ ops : List RecordOp, ops.length = 150 →
      (applyRecordOps HealthMetrics.initState ops).processingTimes
        = (ops.map RecordOp.time).drop 50 ∧
      (HealthMetrics.getMetrics
          (applyRecordOps HealthMetrics.initState ops)).avgProcessingTime
        = ((ops.map RecordOp.time).drop 50).sum / 100)
  ∧ (∀ ops : List RecordOp,
      (applyRecordOps HealthMetrics.initState ops).messageCount = ops.length ∧
      (applyRecordOps HealthMetrics.initState ops).errorCount
        = (ops.filter RecordOp.isError).length ∧
      (HealthMetrics.getMetrics
          (applyRecordOps HealthMetrics.initState ops)).successRate
        = if ops.length = 0 then 100
          else ((ops.length : Rat) - ((ops.filter RecordOp.isError).length : Rat))
                / (ops.length : Rat) * 100)
  ∧ (∀ s : HealthMetrics, s.processingTimes = [] →
      (HealthMetrics.getMetrics s).avgProcessingTime = 0) := by
  refine ⟨?_, ?_, ?_⟩
  · intro ops h150
    have hpts := applyRecordOps_processingTimes ops HealthMetrics.initState []
      (by simp [HealthMetrics.initState, lastN])
    have hmaplen : (ops.map RecordOp.time).length = 150 := by simp [h150]
    have hpts' : (applyRecordOps HealthMetrics.initState ops).processingTimes
        = (ops.map RecordOp.time).drop 50 := by
      rw [hpts]
      unfold lastN
      simp [hmaplen]
    refine ⟨hpts', ?_⟩
    have hlen : ((ops.map RecordOp.time).drop 50).length = 100 := by
      simp [hmaplen]
    unfold HealthMetrics.getMetrics
    rw [hpts', hlen]
    norm_num
  · intro ops
    have hmc : (applyRecordOps HealthMetrics.initState ops).messageCount = ops.length := by
      rw [applyRecordOps_messageCount ops HealthMetrics.initState]
      simp [HealthMetrics.initState]
    have hec : (applyRecordOps HealthMetrics.initState ops).errorCount
        = (ops.filter RecordOp.isError).length := by
      rw [applyRecordOps_errorCount ops HealthMetrics.initState]
      simp [HealthMetrics.initState]
    refine ⟨hmc, hec, ?_⟩
    rcases Nat.eq_zero_or_pos ops.length with h0 | hpos
    · simp [HealthMetrics.getMetrics, hmc, hec, h0]
    · have h0' : ops.length ≠ 0 := by omega
      simp [HealthMetrics.getMetrics, hmc, hec, hpos, h0']
  · intro s hempty
    unfold HealthMetrics.getMetrics
    rw [hempty]
    simp

/-- Witness for C3 at the concrete sequence of 150 `recordSuccess` calls
with latency sample 1. -/
theorem c3_healthMetrics_window_and_rates_witness :
    (List.replicate 150 (RecordOp.success 1 0)).length = 150 ∧
    (applyRecordOps HealthMetrics.initState
        (List.replicate 150 (RecordOp.success 1 0))).processingTimes
      = ((List.replicate 150 (RecordOp.success 1 0)).map RecordOp.time).drop 50 ∧
    (HealthMetrics.getMetrics (applyRecordOps HealthMetrics.initState
        (List.replicate 150 (RecordOp.success 1 0)))).successRate = 100 := by
  refine ⟨by simp, (c3_healthMetrics_window_and_rates.1 _ (by simp)).1, ?_⟩
  have h := (c3_healthMetrics_window_and_rates.2.1
    (List.replicate 150 (RecordOp.success 1 0))).2.2
  rw [h]
  norm_num [List.filter_replicate, RecordOp.isError]

/-- The message shape of `BaseMessageSchema` (types.ts lines 6-13): `id`,
`type` and `targetAgent` are required strings, `payload` is opaque (and may
be absent, since `z.any()` accepts `undefined`), `priority` and `timestamp`
are optional numbers. -/
structure AgentMessage where
  id : String
  type : String
  targetAgent : String
  payload : Option String
  priority : Option Int
  timestamp : Option Int
deriving DecidableEq, Repr

/-- `QueueItem` from types.ts (lines 131-134). -/
structure QueueItem where
  message : AgentMessage
  addedAt : Int
deriving DecidableEq, Repr

/-- The JavaScript condition `message.priority && message.priority > k`:
an absent priority and a zero priority are falsy, any other number falls
through to the comparison. -/
def jsPriorityAndGT (pr : Option Int) (k : Int) : Bool :=
  match pr with
  | some p => decide (p ≠ 0) && decide (k < p)
  | none => false

/-- The state of `PriorityMessageQueue` (PriorityMessageQueue.ts): three
tier arrays plus the externally toggled `_isProcessing` flag. -/
structure PriorityMessageQueue where
  high : List QueueItem
  normal : List QueueItem
  low : List QueueItem
  isProcessing : Bool
deriving DecidableEq, Repr

namespace PriorityMessageQueue

/-- The `PriorityMessageQueue` constructor (lines 16-23). -/
def empty : PriorityMessageQueue :=
  { high := [], normal := [], low := [], isProcessing := false }

/-- Stable insertion of an item into a list ordered by `addedAt`: the new
item is placed after every item whose `addedAt` is less than or equal to
its own. -/
def insertByAddedAt (l : List QueueItem) (x : QueueItem) : List QueueItem :=
  match l with
  | [] => [x]
  | h :: t => if x.addedAt < h.addedAt then x :: h :: t else h :: insertByAddedAt t x

/-- Stable sort by `addedAt`, modelling the stable
`Array.prototype.sort((a, b) => a.addedAt - b.addedAt)` of `sortQueues`
(lines 70-76) as an insertion sort. -/
def sortByAddedAt (l : List QueueItem) : List QueueItem :=
  l.foldl insertByAddedAt []

/-- `sortQueues` (lines 70-76): re-sort every tier by timestamp. -/
def sortQueues (q : PriorityMessageQueue) : PriorityMessageQueue :=
  { q with high := sortByAddedAt q.high
           normal := sortByAddedAt q.normal
           low := sortByAddedAt q.low }

/-- `enqueue` (lines 25-42): wrap the message with `addedAt = Date.now()`,
push it onto the tier selected by the truthiness-guarded priority tests,
then sort every tier by timestamp. -/
def enqueue (q : PriorityMessageQueue) (message : AgentMessage) (now : Int) :
    PriorityMessageQueue :=
  let queueItem : QueueItem := { message := message, addedAt := now }
  let q1 :=
    if jsPriorityAndGT message.priority 5 then { q with high := q.high ++ [queueItem] }
    else if jsPriorityAndGT message.priority 2 then
      { q with normal := q.normal ++ [queueItem] }
    else { q with low := q.low ++ [queueItem] }
  sortQueues q1

/-- `dequeueItem` (lines 55-68): shift from the first non-empty tier in
the order high, normal, low. -/
def dequeueItem (q : PriorityMessageQueue) :
    Option QueueItem × PriorityMessageQueue :=
  match q.high with
  | i :: rest => (some i, { q with high := rest })
  | [] =>
    match q.normal with
    | i :: rest => (some i, { q with normal := rest })
    | [] =>
      match q.low with
      | i :: rest => (some i, { q with low := rest })
      | [] => (none, q)

/-- `dequeue` (lines 44-47). -/
def dequeue (q : PriorityMessageQueue) :
    Option AgentMessage × PriorityMessageQueue :=
  ((q.dequeueItem).1.map QueueItem.message, (q.dequeueItem).2)

/-- The `size` getter (lines 78-84). -/
def size (q : PriorityMessageQueue) : Nat :=
  q.high.length + q.normal.length + q.low.length

/-- `clear` (lines 49-53): empty the three tiers.  The `_isProcessing`
flag is not touched. -/
def clear (q : PriorityMessageQueue) : PriorityMessageQueue :=
  { q with high := [], normal := [], low := [] }

end PriorityMessageQueue

/-- Fold a list of (message, enqueue time) pairs into the queue. -/
def enqueueAll (q : PriorityMessageQueue) (msgs : List (AgentMessage × Int)) :
    PriorityMessageQueue :=
  msgs.foldl (fun acc mt => acc.enqueue mt.1 mt.2) q

/-- The tier predicate of the specification: high iff priority is greater
than 5. -/
def claimHigh (m : AgentMessage) : Bool :=
  match m.priority with
  | some p => decide (5 < p)
  | none => false

/-- The tier predicate of the specification: normal iff priority is greater
than 2 and not greater than 5. -/
def claimNormal (m : AgentMessage) : Bool :=
  match m.priority with
  | some p => decide (2 < p) && decide (p ≤ 5)
  | none => false

/-- The tier predicate of the specification: low otherwise, including when
priority is absent. -/
def claimLow (m : AgentMessage) : Bool :=
  match m.priority with
  | some p => decide (p ≤ 2)
  | none => true

/-- Tier lists ordered by non-decreasing `addedAt`. -/
def sortedLe (l : List QueueItem) : Prop :=
  l.Pairwise (fun a b => a.addedAt ≤ b.addedAt)

theorem insertByAddedAt_append (l : List QueueItem) (x : QueueItem)
    (h : ∀ y ∈ l, y.addedAt ≤ x.addedAt) :
    PriorityMessageQueue.insertByAddedAt l x = l ++ [x] := by
  induction l with
  | nil => rfl
  | cons hd t ih =>
    have hle : hd.addedAt ≤ x.addedAt := h hd (by simp)
    rw [PriorityMessageQueue.insertByAddedAt, if_neg (not_lt.mpr hle),
      ih (fun y hy => h y (by simp [hy]))]
    simp

theorem foldl_insertByAddedAt (l : List QueueItem) :
    ∀ acc : List QueueItem, sortedLe (acc ++ l) →
      l.foldl PriorityMessageQueue.insertByAddedAt acc = acc ++ l := by
  induction l with
  | nil => intro acc _; simp
  | cons x t ih =>
    intro acc h
    have hcross : ∀ a ∈ acc, ∀ b ∈ x :: t, a.addedAt ≤ b.addedAt :=
      (List.pairwise_append.mp h).2.2
    have hins : PriorityMessageQueue.insertByAddedAt acc x = acc ++ [x] :=
      insertByAddedAt_append acc x (fun y hy => hcross y hy x (by simp))
    rw [List.foldl_cons, hins]
    have hsorted : sortedLe ((acc ++ [x]) ++ t) := by
      rw [List.append_assoc]
      simpa using h
    rw [ih (acc ++ [x]) hsorted]
    simp

theorem sortByAddedAt_of_sorted (l : List QueueItem) (h : sortedLe l) :
    PriorityMessageQueue.sortByAddedAt l = l := by
  have := foldl_insertByAddedAt l [] (by simpa using h)
  simpa [PriorityMessageQueue.sortByAddedAt] using this

/-- When every tier is sorted and the new timestamp is at least every
stored timestamp, `enqueue` appends the wrapped message to the end of the
tier described by the specification predicates, and the re-sort is the
identity. -/
theorem enqueue_spec (q : PriorityMessageQueue) (m : AgentMessage) (now : Int)
    (hh : sortedLe q.high) (hn : sortedLe q.normal) (hl : sortedLe q.low)
    (hb : ∀ i ∈ q.high ++ q.normal ++ q.low, i.addedAt ≤ now) :
    q.enqueue m now =
      if claimHigh m then
        { q with high := q.high ++ [{ message := m, addedAt := now }] }
      else if claimNormal m then
        { q with normal := q.normal ++ [{ message := m, addedAt := now }] }
      else
        { q with low := q.low ++ [{ message := m, addedAt := now }] } := by
  have hbh : ∀ i ∈ q.high, i.addedAt ≤ now := fun i hi => hb i (by simp [hi])
  have hbn : ∀ i ∈ q.normal, i.addedAt ≤ now := fun i hi => hb i (by simp [hi])
  have hbl : ∀ i ∈ q.low, i.addedAt ≤ now := fun i hi => hb i (by simp [hi])
  have sh : PriorityMessageQueue.sortByAddedAt q.high = q.high :=
    sortByAddedAt_of_sorted _ hh
  have sn : PriorityMessageQueue.sortByAddedAt q.normal = q.normal :=
    sortByAddedAt_of_sorted _ hn
  have sl : PriorityMessageQueue.sortByAddedAt q.low = q.low :=
    sortByAddedAt_of_sorted _ hl
  have shx : PriorityMessageQueue.sortByAddedAt
      (q.high ++ [{ message := m, addedAt := now }])
      = q.high ++ [{ message := m, addedAt := now }] := by
    refine sortByAddedAt_of_sorted _ ?_
    refine List.pairwise_append.mpr ⟨hh, by simp, ?_⟩
    intro a ha b hb'
    simp at hb'
    rw [hb']
    exact hbh a ha
  have snx : PriorityMessageQueue.sortByAddedAt
      (q.normal ++ [{ message := m, addedAt := now }])
      = q.normal ++ [{ message := m, addedAt := now }] := by
    refine sortByAddedAt_of_sorted _ ?_
    refine List.pairwise_append.mpr ⟨hn, by simp, ?_⟩
    intro a ha b hb'
    simp at hb'
    rw [hb']
    exact hbn a ha
  have slx : PriorityMessageQueue.sortByAddedAt
      (q.low ++ [{ message := m, addedAt := now }])
      = q.low ++ [{ message := m, addedAt := now }] := by
    refine sortByAddedAt_of_sorted _ ?_
    refine List.pairwise_append.mpr ⟨hl, by simp, ?_⟩
    intro a ha b hb'
    simp at hb'
    rw [hb']
    exact hbl a ha
  rcases hpr : m.priority with _ | p
  · simp [PriorityMessageQueue.enqueue, PriorityMessageQueue.sortQueues,
      jsPriorityAndGT, claimHigh, claimNormal, hpr, sh, sn, slx]
  · by_cases h5 : 5 < p
    · have hne : p ≠ 0 := by omega
      simp [PriorityMessageQueue.enqueue, PriorityMessageQueue.sortQueues,
        jsPriorityAndGT, claimHigh, claimNormal, hpr, h5, hne, shx, sn, sl]
    · by_cases h2 : 2 < p
      · have hne : p ≠ 0 := by omega
        have h5' : p ≤ 5 := by omega
        simp [PriorityMessageQueue.enqueue, PriorityMessageQueue.sortQueues,
          jsPriorityAndGT, claimHigh, claimNormal, hpr, h5, h2, hne, h5', sh, snx, sl]
      · simp [PriorityMessageQueue.enqueue, PriorityMessageQueue.sortQueues,
          jsPriorityAndGT, claimHigh, claimNormal, hpr, h5, h2, sh, sn, slx]

theorem claimNormal_eq_false_of_high (m : AgentMessage) (h : claimHigh m = true) :
    claimNormal m = false := by
  unfold claimHigh at h
  unfold claimNormal
  rcases hpr : m.priority with _ | p
  · rw [hpr] at h
  · rw [hpr] at h
    simp at h
    have h1 : ¬ p ≤ 5 := by omega
    simp [h1]

theorem claimLow_eq_false_of_high (m : AgentMessage) (h : claimHigh m = true) :
    claimLow m = false := by
  unfold claimHigh at h
  unfold claimLow
  rcases hpr : m.priority with _ | p
  · rw [hpr] at h
    simp at h
  · rw [hpr] at h
    simp at h
    have h1 : ¬ p ≤ 2 := by omega
    simp [h1]

theorem claimLow_eq_false_of_normal (m : AgentMessage) (h : claimNormal m = true) :
    claimLow m = false := by
  unfold claimNormal at h
  unfold claimLow
  rcases hpr : m.priority with _ | p
  · rw [hpr] at h
    simp at h
  · rw [hpr] at h
    simp at h
    have h1 : ¬ p ≤ 2 := by omega
    simp [h1]

theorem claimHigh_eq_false_of_normal (m : AgentMessage) (h : claimNormal m = true) :
    claimHigh m = false := by
  unfold claimNormal at h
  unfold claimHigh
  rcases hpr : m.priority with _ | p
  · rw [hpr] at h
  · rw [hpr] at h
    simp at h
    have h1 : ¬ 5 < p := by omega
    simp [h1]

theorem claimLow_eq_true_of_not_high_normal (m : AgentMessage)
    (h1 : claimHigh m = false) (h2 : claimNormal m = false) :
    claimLow m = true := by
  unfold claimHigh at h1
  unfold claimNormal at h2
  unfold claimLow
  rcases hpr : m.priority with _ | p
  · rfl
  · rw [hpr] at h1 h2
    simp at h1 h2
    simp
    omega


/-- Item built from a (message, enqueue time) pair. -/
def mkItem (mt : AgentMessage × Int) : QueueItem :=
  { message := mt.1, addedAt := mt.2 }

theorem enqueueAll_filters (msgs : List (AgentMessage × Int)) :
    ∀ q : PriorityMessageQueue,
      sortedLe q.high → sortedLe q.normal → sortedLe q.low →
      (∀ i ∈ q.high ++ q.normal ++ q.low, ∀ mt ∈ msgs, i.addedAt ≤ mt.2) →
      (msgs.map Prod.snd).Pairwise (· ≤ ·) →
      (enqueueAll q msgs).high
          = q.high ++ (msgs.filter (fun mt => claimHigh mt.1)).map mkItem ∧
      (enqueueAll q msgs).normal
          = q.normal ++ (msgs.filter (fun mt => claimNormal mt.1)).map mkItem ∧
      (enqueueAll q msgs).low
          = q.low ++ (msgs.filter (fun mt => claimLow mt.1)).map mkItem ∧
      (enqueueAll q msgs).isProcessing = q.isProcessing := by
  induction msgs with
  | nil => intro q _ _ _ _ _; simp [enqueueAll]
  | cons mt rest ih =>
    rcases mt with ⟨m, t⟩
    intro q hh hn hl hb hp
    have hbt : ∀ i ∈ q.high ++ q.normal ++ q.low, i.addedAt ≤ t :=
      fun i hi => hb i hi (m, t) (by simp)
    have hspec := enqueue_spec q m t hh hn hl hbt
    have hp' : (t :: rest.map Prod.snd).Pairwise (· ≤ ·) := by simpa using hp
    have hpt : ∀ mt' ∈ rest, t ≤ mt'.2 := by
      intro mt' hmt'
      exact (List.pairwise_cons.mp hp').1 mt'.2 (List.mem_map_of_mem _ hmt')
    have hrest : (rest.map Prod.snd).Pairwise (· ≤ ·) := (List.pairwise_cons.mp hp').2
    have hstep : enqueueAll q ((m, t) :: rest) = enqueueAll (q.enqueue m t) rest := by
      simp [enqueueAll]
    have hnewItem : ∀ i ∈ [mkItem (m, t)], ∀ mt' ∈ rest, i.addedAt ≤ mt'.2 := by
      intro i hi mt' hmt'
      simp [mkItem] at hi
      rw [hi]
      exact hpt mt' hmt'
    have hboldrest : ∀ i ∈ q.high ++ q.normal ++ q.low, ∀ mt' ∈ rest, i.addedAt ≤ mt'.2 :=
      fun i hi mt' hmt' => hb i hi mt' (by simp [hmt'])
    by_cases hH : claimHigh m
    · rw [if_pos hH] at hspec
      have hh1 : sortedLe (q.high ++ [mkItem (m, t)]) := by
        refine List.pairwise_append.mpr ⟨hh, by simp, ?_⟩
        intro a ha b hb'
        simp [mkItem] at hb'
        rw [hb']
        exact hbt a (by simp [ha])
      have hb1 : ∀ i ∈ (q.high ++ [mkItem (m, t)]) ++ q.normal ++ q.low,
          ∀ mt' ∈ rest, i.addedAt ≤ mt'.2 := by
        intro i hi mt' hmt'
        have hi2 : i ∈ q.high ++ q.normal ++ q.low ∨ i = mkItem (m, t) := by
          simp only [List.mem_append, List.mem_singleton] at hi ⊢
          tauto
        rcases hi2 with hi2 | hi2
        · exact hboldrest i hi2 mt' hmt'
        · rw [hi2]
          simpa [mkItem] using hpt mt' hmt'
      have := ih { q with high := q.high ++ [mkItem (m, t)] } hh1 hn hl hb1 hrest
      rw [hstep, hspec]
      simp only [mkItem] at this ⊢
      refine ⟨?_, ?_, ?_, ?_⟩
      · rw [this.1]
        simp [List.filter_cons, hH, mkItem]
      · rw [this.2.1]
        simp [List.filter_cons, claimNormal_eq_false_of_high m hH]
      · rw [this.2.2.1]
        simp [List.filter_cons, claimLow_eq_false_of_high m hH]
      · exact this.2.2.2
    · by_cases hN : claimNormal m
      · rw [if_neg hH, if_pos hN] at hspec
        have hn1 : sortedLe (q.normal ++ [mkItem (m, t)]) := by
          refine List.pairwise_append.mpr ⟨hn, by simp, ?_⟩
          intro a ha b hb'
          simp [mkItem] at hb'
          rw [hb']
          exact hbt a (by simp [ha])
        have hb1 : ∀ i ∈ q.high ++ (q.normal ++ [mkItem (m, t)]) ++ q.low,
            ∀ mt' ∈ rest, i.addedAt ≤ mt'.2 := by
          intro i hi mt' hmt'
          have hi2 : i ∈ q.high ++ q.normal ++ q.low ∨ i = mkItem (m, t) := by
            simp only [List.mem_append, List.mem_singleton] at hi ⊢
            tauto
          rcases hi2 with hi2 | hi2
          · exact hboldrest i hi2 mt' hmt'
          · rw [hi2]
            simpa [mkItem] using hpt mt' hmt'
        have := ih { q with normal := q.normal ++ [mkItem (m, t)] } hh hn1 hl hb1 hrest
        rw [hstep, hspec]
        simp only [mkItem] at this ⊢
        refine ⟨?_, ?_, ?_, ?_⟩
        · rw [this.1]
          simp [List.filter_cons, hH]
        · rw [this.2.1]
          simp [List.filter_cons, hN, mkItem]
        · rw [this.2.2.1]
          simp [List.filter_cons, claimLow_eq_false_of_normal m hN]
        · exact this.2.2.2
      · rw [if_neg hH, if_neg hN] at hspec
        have hL : claimLow m = true :=
          claimLow_eq_true_of_not_high_normal m (by simpa using hH) (by simpa using hN)
        have hl1 : sortedLe (q.low ++ [mkItem (m, t)]) := by
          refine List.pairwise_append.mpr ⟨hl, by simp, ?_⟩
          intro a ha b hb'
          simp [mkItem] at hb'
          rw [hb']
          exact hbt a (by simp [ha])
        have hb1 : ∀ i ∈ q.high ++ q.normal ++ (q.low ++ [mkItem (m, t)]),
            ∀ mt' ∈ rest, i.addedAt ≤ mt'.2 := by
          intro i hi mt' hmt'
          have hi2 : i ∈ q.high ++ q.normal ++ q.low ∨ i = mkItem (m, t) := by
            simp only [List.mem_append, List.mem_singleton] at hi ⊢
            tauto
          rcases hi2 with hi2 | hi2
          · exact hboldrest i hi2 mt' hmt'
          · rw [hi2]
            simpa [mkItem] using hpt mt' hmt'
        have := ih { q with low := q.low ++ [mkItem (m, t)] } hh hn hl1 hb1 hrest
        rw [hstep, hspec]
        simp only [mkItem] at this ⊢
        refine ⟨?_, ?_, ?_, ?_⟩
        · rw [this.1]
          simp [List.filter_cons, hH]
        · rw [this.2.1]
          simp [List.filter_cons, hN]
        · rw [this.2.2.1]
          simp [List.filter_cons, hL, mkItem]
        · exact this.2.2.2

/-- C4: PriorityMessageQueue tier selection and dispatch order.  For any
sequence of enqueues whose `Date.now()` stamps are non-decreasing, the high
tier holds exactly the messages whose priority is greater than 5, the
normal tier exactly those whose priority is greater than 2 but not greater
than 5, and the low tier all others (including messages with no priority),
each tier in FIFO order of enqueue time; and `dequeue` always removes and
returns the head of the first non-empty tier in the order high, normal,
low. -/
theorem c4_priorityQueue_tiers_and_dequeue :
    (∀ msgs : List (AgentMessage × Int),
      (msgs.map Prod.snd).Pairwise (· ≤ ·) →
      (enqueueAll PriorityMessageQueue.empty msgs).high
          = (msgs.filter (fun mt => claimHigh mt.1)).map mkItem ∧
      (enqueueAll PriorityMessageQueue.empty msgs).normal
          = (msgs.filter (fun mt => claimNormal mt.1)).map mkItem ∧
      (enqueueAll PriorityMessageQueue.empty msgs).low
          = (msgs.filter (fun mt => claimLow mt.1)).map mkItem)
  ∧ (∀ (q : PriorityMessageQueue) (i : QueueItem) (rest : List QueueItem),
      q.high = i :: rest →
      q.dequeue = (some i.message, { q with high := rest }))
  ∧ (∀ (q : PriorityMessageQueue) (i : QueueItem) (rest : List QueueItem),
      q.high = [] → q.normal = i :: rest →
      q.dequeue = (some i.message, { q with normal := rest }))
  ∧ (∀ (q : PriorityMessageQueue) (i : QueueItem) (rest : List QueueItem),
      q.high = [] → q.normal = [] → q.low = i :: rest →
      q.dequeue = (some i.message, { q with low := rest }))
  ∧ (∀ q : PriorityMessageQueue, q.high = [] → q.normal = [] → q.low = [] →
      q.dequeue = (none, q)) := by
  refine ⟨?_, ?_, ?_, ?_, ?_⟩
  · intro msgs hpw
    have h := enqueueAll_filters msgs PriorityMessageQueue.empty
      (by simp [PriorityMessageQueue.empty, sortedLe])
      (by simp [PriorityMessageQueue.empty, sortedLe])
      (by simp [PriorityMessageQueue.empty, sortedLe])
      (by simp [PriorityMessageQueue.empty]) hpw
    simpa [PriorityMessageQueue.empty] using ⟨h.1, h.2.1, h.2.2.1⟩
  · intro q i rest hq
    simp [PriorityMessageQueue.dequeue, PriorityMessageQueue.dequeueItem, hq]
  · intro q i rest hq1 hq2
    simp [PriorityMessageQueue.dequeue, PriorityMessageQueue.dequeueItem, hq1, hq2]
  · intro q i rest hq1 hq2 hq3
    simp [PriorityMessageQueue.dequeue, PriorityMessageQueue.dequeueItem, hq1, hq2, hq3]
  · intro q hq1 hq2 hq3
    simp [PriorityMessageQueue.dequeue, PriorityMessageQueue.dequeueItem, hq1, hq2, hq3]

/-- A concrete message with the given priority, for the C4 witness. -/
def msgP (p : Option Int) : AgentMessage :=
  { id := "m", type := "T", targetAgent := "a", payload := none
    priority := p, timestamp := none }

/-- Witness for C4: enqueueing priorities 6, 3, 1 and an absent priority at
times 1, 2, 3, 4 buckets them high, normal, low, low, and dequeue pops the
high-tier head. -/
theorem c4_priorityQueue_tiers_and_dequeue_witness :
    (enqueueAll PriorityMessageQueue.empty
        [(msgP (some 6), 1), (msgP (some 3), 2), (msgP (some 1), 3), (msgP none, 4)]).high
      = [mkItem (msgP (some 6), 1)] ∧
    (enqueueAll PriorityMessageQueue.empty
        [(msgP (some 6), 1), (msgP (some 3), 2), (msgP (some 1), 3), (msgP none, 4)]).normal
      = [mkItem (msgP (some 3), 2)] ∧
    (enqueueAll PriorityMessageQueue.empty
        [(msgP (some 6), 1), (msgP (some 3), 2), (msgP (some 1), 3), (msgP none, 4)]).low
      = [mkItem (msgP (some 1), 3), mkItem (msgP none, 4)] ∧
    (PriorityMessageQueue.mk [mkItem (msgP (some 6), 1)] [mkItem (msgP (some 3), 2)] []
        false).dequeue
      = (some (msgP (some 6)),
          PriorityMessageQueue.mk [] [mkItem (msgP (some 3), 2)] [] false) := by
  have h := c4_priorityQueue_tiers_and_dequeue.1
    [(msgP (some 6), 1), (msgP (some 3), 2), (msgP (some 1), 3), (msgP none, 4)]
    (by decide)
  refine ⟨h.1.trans (by decide), h.2.1.trans (by decide), h.2.2.trans (by decide), ?_⟩
  have h2 := c4_priorityQueue_tiers_and_dequeue.2.1
    (PriorityMessageQueue.mk [mkItem (msgP (some 6), 1)] [mkItem (msgP (some 3), 2)] [] false)
    (mkItem (msgP (some 6), 1)) [] rfl
  exact h2.trans (by decide)

/-- The state of the per-agent `MessageQueue` (MessageQueue.ts): the
ordered array of pending messages, the processing flag, and the capacity.
The `processCallback` constructor parameter drives the external draining
procedure and is not part of the queue state. -/
structure MessageQueue where
  queue : List AgentMessage
  processing : Bool
  maxSize : Nat
deriving DecidableEq, Repr

/-- The `MessageQueue` constructor `(processCallback, maxSize = 100)`
(MessageQueue.ts lines 10-16); `maxSizeArg = none` models a call in which
the second argument is omitted, so `maxSize` takes its default of 100. -/
def mkMessageQueue (maxSizeArg : Option Nat) : MessageQueue :=
  { queue := [], processing := false, maxSize := maxSizeArg.getD 100 }

/-- `AgentConfig` from types.ts (lines 82-88): `name` required, the rest
optional. -/
structure AgentConfig where
  name : String
  maxRetries : Option Nat
  maxQueueSize : Option Nat
  maxConcurrentTasks : Option Nat
  timeoutMs : Option Int
deriving DecidableEq, Repr

/-- The resolved `maxQueueSize` of the base config built by the `BaseAgent`
constructor (BaseAgent.ts line 25): `config.maxQueueSize ?? 1000`. -/
def resolvedMaxQueueSize (cfg : AgentConfig) : Nat :=
  cfg.maxQueueSize.getD 1000

/-- The private queue built by the `BaseAgent` constructor (BaseAgent.ts
line 33): `new MessageQueue(this.config.maxQueueSize)` passes a single
argument, which binds to the `processCallback` parameter of the
`MessageQueue` constructor; the `maxSize` parameter is therefore omitted
and takes its default of 100, whatever `maxQueueSize` was configured. -/
def baseAgentMessageQueue (_cfg : AgentConfig) : MessageQueue :=
  mkMessageQueue none

/-- Index of the last element satisfying `p`, as `findLastIndex` does. -/
def findLastIdxOpt (p : AgentMessage → Bool) (l : List AgentMessage) : Option Nat :=
  match l.reverse.findIdx? p with
  | some i => some (l.length - 1 - i)
  | none => none

/-- The priority-ordered stable insertion of `MessageQueue.enqueue`
(MessageQueue.ts lines 50-65): insert before the first strictly smaller
priority; failing that, after the last equal priority; failing that, at
the end. -/
def insertByPriority (l : List AgentMessage) (m : AgentMessage) : List AgentMessage :=
  let priority := m.priority.getD 0
  match l.findIdx? (fun x => decide (x.priority.getD 0 < priority)) with
  | some i => l.insertIdx i m
  | none =>
    match findLastIdxOpt (fun x => decide (x.priority.getD 0 = priority)) l with
    | some j => l.insertIdx (j + 1) m
    | none => l ++ [m]

namespace MessageQueue

/-- `enqueue` (MessageQueue.ts lines 42-71): reject with a QUEUE_FULL
`AgentError` when the length has reached `maxSize`, otherwise insert in
priority order.  The final step of the source method hands control to the
external `processCallback`-driven drain when the queue is not already
processing; that drain is external behaviour and not part of the
queue-state transition modelled here. -/
def enqueue (mq : MessageQueue) (m : AgentMessage) : Except AgentError MessageQueue :=
  if mq.maxSize ≤ mq.queue.length then
    .error { etype := some .QUEUE_FULL, message := "Queue is full" }
  else
    .ok { mq with queue := insertByPriority mq.queue m }

/-- The `size` getter (MessageQueue.ts lines 21-23). -/
def size (mq : MessageQueue) : Nat := mq.queue.length

/-- `clear` (MessageQueue.ts lines 86-89): drop all messages and reset the
processing flag. -/
def clear (mq : MessageQueue) : MessageQueue :=
  { mq with queue := [], processing := false }

end MessageQueue

/-- C10: `PriorityMessageQueue.clear` empties all three tiers (size 0) but
leaves the `_isProcessing` flag exactly as it was, so a clear issued while
a drain is marked in progress leaves the queue marked as processing; the
per-agent `MessageQueue.clear`, by contrast, also resets its processing
flag to false. -/
theorem c10_clear_flag_semantics :
    (∀ pq : PriorityMessageQueue,
      pq.clear.size = 0 ∧ pq.clear.isProcessing = pq.isProcessing)
  ∧ (∀ pq : PriorityMessageQueue, pq.isProcessing = true →
      pq.clear.isProcessing = true)
  ∧ (∀ mq : MessageQueue, mq.clear.queue = [] ∧ mq.clear.processing = false) := by
  refine ⟨?_, ?_, ?_⟩
  · intro pq
    exact ⟨rfl, rfl⟩
  · intro pq h
    simpa [PriorityMessageQueue.clear] using h
  · intro mq
    exact ⟨rfl, rfl⟩

/-- Witness for C10: clearing a mid-drain priority queue keeps
`isProcessing = true` while its size drops to 0. -/
theorem c10_clear_flag_semantics_witness :
    (PriorityMessageQueue.mk [mkItem (msgP none, 0)] [] [] true).isProcessing = true ∧
    (PriorityMessageQueue.mk [mkItem (msgP none, 0)] [] [] true).clear.isProcessing
      = true ∧
    (PriorityMessageQueue.mk [mkItem (msgP none, 0)] [] [] true).clear.size = 0 :=
  ⟨rfl,
    c10_clear_flag_semantics.2.1
      (PriorityMessageQueue.mk [mkItem (msgP none, 0)] [] [] true) rfl,
    (c10_clear_flag_semantics.1
      (PriorityMessageQueue.mk [mkItem (msgP none, 0)] [] [] true)).1⟩

/-- An `AgentConfig` that configures the per-agent queue capacity as 2. -/
def cfgCapacityTwo : AgentConfig :=
  { name := "agent-a", maxRetries := none, maxQueueSize := some 2
    maxConcurrentTasks := none, timeoutMs := none }

/-- C6 (code bug, evaluated at the failing input): the base config resolves
`maxQueueSize` to the configured 2 (default 1000), but the queue the
`BaseAgent` constructor actually builds has `maxSize = 100`, because
`new MessageQueue(this.config.maxQueueSize)` passes the capacity into the
`processCallback` parameter slot and leaves the `maxSize` parameter to its
default.  Consequently a third enqueue into that queue succeeds instead of
being rejected.  A `MessageQueue` whose `maxSize` really is 2 — as the
repository test constructs directly — does reject the third enqueue with a
QUEUE_FULL error while holding exactly 2 messages, and the capacity guard
itself compares length against `maxSize` exactly. -/
theorem c6_baseAgent_queue_capacity_bug :
    resolvedMaxQueueSize cfgCapacityTwo = 2 ∧
    resolvedMaxQueueSize { cfgCapacityTwo with maxQueueSize := none } = 1000 ∧
    (baseAgentMessageQueue cfgCapacityTwo).maxSize = 100 ∧
    (Except.isOk ((((baseAgentMessageQueue cfgCapacityTwo).enqueue (msgP none)).bind
        (fun q => q.enqueue (msgP none))).bind (fun q => q.enqueue (msgP none)))
      = true) ∧
    ((((mkMessageQueue (some 2)).enqueue (msgP none)).bind
        (fun q => q.enqueue (msgP none))).bind (fun q => q.enqueue (msgP none))
      = .error { etype := some .QUEUE_FULL, message := "Queue is full" }) ∧
    (((mkMessageQueue (some 2)).enqueue (msgP none)).bind
        (fun q => q.enqueue (msgP none)) |>.map MessageQueue.size)
      = .ok 2 := by
  refine ⟨by decide, by decide, by decide, by decide, by rfl, by rfl⟩

/-- A raw inbound value checked against `BaseMessageSchema`: each required
field is `some` when present with the right runtime type and `none`
otherwise.  `payload` is `z.any()`, which also accepts an absent value. -/
structure RawMessage where
  id : Option String
  type : Option String
  targetAgent : Option String
  payload : Option String
  priority : Option Int
  timestamp : Option Int
deriving DecidableEq, Repr

/-- `MessageValidators.validateOrchestratorMessage` (utils.ts lines
106-108), a zod parse against `OrchestratorMessageSchema` (types.ts lines
62-66): `id`, `type` and `targetAgent` must be present strings; `payload`
is anything; `priority` and `timestamp` are optional numbers.  A failed
parse is re-thrown as a VALIDATION `AgentError` (the zod detail text of
the message is elided here, and the third constructor argument is
discarded by the two-parameter constructor). -/
def validateOrchestratorMessage (raw : RawMessage) : Except AgentError AgentMessage :=
  match raw.id, raw.type, raw.targetAgent with
  | some i, some t, some ta =>
    .ok { id := i, type := t, targetAgent := ta, payload := raw.payload
          priority := raw.priority, timestamp := raw.timestamp }
  | _, _, _ =>
    .error { etype := some .VALIDATION, message := "Invalid message format" }

/-- `OrchestratorConfig` from types.ts (lines 122-126), extending
`AgentConfig`. -/
structure OrchestratorConfig where
  name : String
  maxRetries : Option Nat
  maxQueueSize : Option Nat
  maxConcurrentTasks : Option Nat
  timeoutMs : Option Int
  maxConcurrentMessages : Option Nat
  routingTimeout : Option Int
  retryDelay : Option Nat
deriving DecidableEq, Repr

/-- `OrchestratorAgent.processMessage` (OrchestratorAgent.ts lines
127-146): validate the message first, then reject with the queue-full
error (thrown at the `AgentErrorType.OPERATION` site, whose runtime value
is `undefined`) when `size >= maxQueueSize ?? 1000`, otherwise enqueue
into the shared priority queue and start the drain loop only when
`isProcessing` is not already true.  The returned Boolean records whether
the drain loop was started. -/
def orchestratorProcessMessage (cfg : OrchestratorConfig)
    (q : PriorityMessageQueue) (raw : RawMessage) (now : Int) :
    Except AgentError (PriorityMessageQueue × Bool) :=
  match validateOrchestratorMessage raw with
  | .error e => .error e
  | .ok msg =>
    if cfg.maxQueueSize.getD 1000 ≤ q.size then
      .error { etype := AgentErrorTypeOPERATION, message := "Message queue is full" }
    else
      let q1 := q.enqueue msg now
      .ok (q1, !q1.isProcessing)

theorem insertByAddedAt_length (l : List QueueItem) (x : QueueItem) :
    (PriorityMessageQueue.insertByAddedAt l x).length = l.length + 1 := by
  induction l with
  | nil => rfl
  | cons hd t ih =>
    rw [PriorityMessageQueue.insertByAddedAt]
    by_cases h : x.addedAt < hd.addedAt
    · simp [h]
    · simp [h, ih]

theorem foldl_insertByAddedAt_length (l : List QueueItem) :
    ∀ acc : List QueueItem,
      (l.foldl PriorityMessageQueue.insertByAddedAt acc).length
        = acc.length + l.length := by
  induction l with
  | nil => intro acc; simp
  | cons x t ih =>
    intro acc
    rw [List.foldl_cons, ih, insertByAddedAt_length]
    simp only [List.length_cons]
    omega

theorem sortByAddedAt_length (l : List QueueItem) :
    (PriorityMessageQueue.sortByAddedAt l).length = l.length := by
  simpa [PriorityMessageQueue.sortByAddedAt] using foldl_insertByAddedAt_length l []

theorem enqueue_size (q : PriorityMessageQueue) (m : AgentMessage) (now : Int) :
    (q.enqueue m now).size = q.size + 1 := by
  unfold PriorityMessageQueue.enqueue PriorityMessageQueue.sortQueues
    PriorityMessageQueue.size
  by_cases h5 : jsPriorityAndGT m.priority 5
  · simp [h5, sortByAddedAt_length]
    omega
  · by_cases h2 : jsPriorityAndGT m.priority 2
    · simp [h5, h2, sortByAddedAt_length]
      omega
    · simp [h5, h2, sortByAddedAt_length]
      omega

theorem enqueue_isProcessing (q : PriorityMessageQueue) (m : AgentMessage) (now : Int) :
    (q.enqueue m now).isProcessing = q.isProcessing := by
  unfold PriorityMessageQueue.enqueue PriorityMessageQueue.sortQueues
  by_cases h5 : jsPriorityAndGT m.priority 5
  · simp [h5]
  · by_cases h2 : jsPriorityAndGT m.priority 2
    · simp [h5, h2]
    · simp [h5, h2]

/-- A shared priority queue already holding one message. -/
def qOneLow : PriorityMessageQueue :=
  { high := [], normal := [], low := [mkItem (msgP none, 0)], isProcessing := false }

/-- A malformed raw message: `id` is absent. -/
def rawNoId : RawMessage :=
  { id := none, type := some "T", targetAgent := some "a", payload := none
    priority := none, timestamp := none }

/-- An orchestrator config with `maxQueueSize = 1`. -/
def cfgQueueOne : OrchestratorConfig :=
  { name := "orchestrator", maxRetries := none, maxQueueSize := some 1
    maxConcurrentTasks := none, timeoutMs := none, maxConcurrentMessages := none
    routingTimeout := none, retryDelay := none }

/-- Counterexample to C5: with the shared queue at `maxQueueSize` (size 1,
`maxQueueSize = 1`) and a malformed message (missing `id`),
`processMessage` does not fail with the queue-full OPERATION-site error —
validation runs first, so the call fails with a VALIDATION error.  The
claim says a full queue makes every `processMessage` call fail with an
OPERATION error. -/
theorem c5_counterexample_validation_precedes_queue_check :
    cfgQueueOne.maxQueueSize.getD 1000 ≤ qOneLow.size ∧
    orchestratorProcessMessage cfgQueueOne qOneLow rawNoId 5
      = .error { etype := some .VALIDATION, message := "Invalid message format" } ∧
    orchestratorProcessMessage cfgQueueOne qOneLow rawNoId 5
      ≠ .error { etype := AgentErrorTypeOPERATION, message := "Message queue is full" } := by
  refine ⟨by decide, by rfl, ?_⟩
  intro h
  rw [show orchestratorProcessMessage cfgQueueOne qOneLow rawNoId 5
      = .error { etype := some .VALIDATION, message := "Invalid message format" } from rfl]
    at h
  simp [AgentErrorTypeOPERATION] at h

/-- C5 (amended): `processMessage` validates the message shape first — a
malformed message fails with a VALIDATION error before anything is
enqueued, regardless of queue fullness; for a message that validates, the
call fails with the queue-full error (thrown at the
`AgentErrorType.OPERATION` site, whose runtime type field is undefined
because the enum lacks that member) exactly when the shared queue size has
reached `maxQueueSize ?? 1000`, leaving the queue unchanged; otherwise it
enqueues the message into the three-tier queue and starts the drain loop
only if `isProcessing` is not already true. -/
theorem c5_processMessage_order_and_limits :
    (∀ (cfg : OrchestratorConfig) (q : PriorityMessageQueue) (raw : RawMessage)
        (now : Int) (e : AgentError),
      validateOrchestratorMessage raw = .error e →
      orchestratorProcessMessage cfg q raw now = .error e ∧
      e.etype = some .VALIDATION)
  ∧ (∀ (cfg : OrchestratorConfig) (q : PriorityMessageQueue) (raw : RawMessage)
        (msg : AgentMessage) (now : Int),
      validateOrchestratorMessage raw = .ok msg →
      cfg.maxQueueSize.getD 1000 ≤ q.size →
      orchestratorProcessMessage cfg q raw now
        = .error { etype := AgentErrorTypeOPERATION, message := "Message queue is full" })
  ∧ (∀ (cfg : OrchestratorConfig) (q : PriorityMessageQueue) (raw : RawMessage)
        (msg : AgentMessage) (now : Int),
      validateOrchestratorMessage raw = .ok msg →
      q.size < cfg.maxQueueSize.getD 1000 →
      orchestratorProcessMessage cfg q raw now
        = .ok (q.enqueue msg now, !q.isProcessing) ∧
      (q.enqueue msg now).size = q.size + 1) := by
  refine ⟨?_, ?_, ?_⟩
  · intro cfg q raw now e h
    refine ⟨by simp [orchestratorProcessMessage, h], ?_⟩
    unfold validateOrchestratorMessage at h
    split at h
    · exact absurd h (by simp)
    · simp only [Except.error.injEq] at h
      rw [← h]
  · intro cfg q raw msg now hval hle
    simp [orchestratorProcessMessage, hval, if_pos hle]
  · intro cfg q raw msg now hval hlt
    refine ⟨?_, enqueue_size q msg now⟩
    simp [orchestratorProcessMessage, hval, if_neg (not_le.mpr hlt),
      enqueue_isProcessing]

/-- A well-formed raw message. -/
def rawGood : RawMessage :=
  { id := some "1", type := some "T", targetAgent := some "a", payload := none
    priority := none, timestamp := none }

/-- Witness for C5: a well-formed message on a non-full queue is enqueued
and starts the drain loop; a malformed message fails with VALIDATION. -/
theorem c5_processMessage_order_and_limits_witness :
    orchestratorProcessMessage cfgQueueOne PriorityMessageQueue.empty rawGood 7
      = .ok (PriorityMessageQueue.empty.enqueue
          { id := "1", type := "T", targetAgent := "a", payload := none
            priority := none, timestamp := none } 7, true) ∧
    orchestratorProcessMessage cfgQueueOne qOneLow rawNoId 5
      = .error { etype := some .VALIDATION, message := "Invalid message format" } ∧
    cfgQueueOne.maxQueueSize.getD 1000 ≤ qOneLow.size := by
  refine ⟨?_, ?_, by decide⟩
  · exact (c5_processMessage_order_and_limits.2.2 cfgQueueOne PriorityMessageQueue.empty
      rawGood _ 7 rfl (by decide)).1
  · exact (c5_processMessage_order_and_limits.1 cfgQueueOne qOneLow rawNoId 5 _ rfl).1

/-- `AgentState` from types.ts (lines 73-77). -/
inductive AgentState where
  | IDLE
  | WORKING
  | ERROR
deriving DecidableEq, Repr

/-- `AgentStateInfo` from OrchestratorAgent.ts (lines 15-21), the record
the orchestrator keeps per registered agent. -/
structure AgentStateInfo where
  state : AgentState
  lastActiveTime : Int
  errorCount : Nat
  circuitBreaker : CircuitBreaker
  healthMetrics : HealthMetrics
deriving DecidableEq, Repr

/-- `isAgentHealthy` (OrchestratorAgent.ts lines 266-279): healthy iff the
circuit is not OPEN, the last activity is within `timeoutMs ?? 30000` of
now, and the state is not ERROR; an unknown agent is unhealthy. -/
def isAgentHealthy (cfg : OrchestratorConfig)
    (states : String → Option AgentStateInfo) (agentName : String) (now : Int) :
    Bool :=
  match states agentName with
  | none => false
  | some si =>
    decide (si.circuitBreaker.state ≠ .OPEN) &&
    decide (now - si.lastActiveTime < cfg.timeoutMs.getD 30000) &&
    decide (si.state ≠ .ERROR)

/-- Outcome of one iteration of the drain loop. -/
inductive DrainOutcome where
  | emptyQueue
  | skippedUnknown
  | requeued
  | dropped
  | routed (ok : Bool)
deriving DecidableEq, Repr

/-- One iteration of the `while` loop of `processQueuedMessages`
(OrchestratorAgent.ts lines 157-196): dequeue; skip when the target agent
or its state record is missing; when the target is unhealthy, requeue if
its `errorCount` is below `maxRetries ?? 3` and drop it otherwise; when
healthy, route it (the routing call, whose failure the loop catches and
logs, is abstracted by `routeOk`).  The loop body never throws to the
original enqueuer: every branch produces an outcome and continues. -/
def drainStep (cfg : OrchestratorConfig) (agents : String → Bool)
    (states : String → Option AgentStateInfo) (q : PriorityMessageQueue)
    (now : Int) (routeOk : Bool) : DrainOutcome × PriorityMessageQueue :=
  if q.size = 0 then (.emptyQueue, q)
  else
    match q.dequeue with
    | (none, q') => (.emptyQueue, q')
    | (some msg, q') =>
      if !(agents msg.targetAgent) then (.skippedUnknown, q')
      else
        match states msg.targetAgent with
        | none => (.skippedUnknown, q')
        | some si =>
          if !(isAgentHealthy cfg states msg.targetAgent now) then
            if si.errorCount < cfg.maxRetries.getD 3 then
              (.requeued, q'.enqueue msg now)
            else (.dropped, q')
          else (.routed routeOk, q')

theorem dequeue_some_size (q : PriorityMessageQueue) (msg : AgentMessage)
    (q' : PriorityMessageQueue) (h : q.dequeue = (some msg, q')) :
    q'.size + 1 = q.size := by
  rcases q with ⟨hi, no, lo, pr⟩
  cases hi with
  | cons i rest =>
    simp [PriorityMessageQueue.dequeue, PriorityMessageQueue.dequeueItem] at h
    rw [← h.2]
    simp [PriorityMessageQueue.size]
    omega
  | nil =>
    cases no with
    | cons i rest =>
      simp [PriorityMessageQueue.dequeue, PriorityMessageQueue.dequeueItem] at h
      rw [← h.2]
      simp [PriorityMessageQueue.size]
      omega
    | nil =>
      cases lo with
      | cons i rest =>
        simp [PriorityMessageQueue.dequeue, PriorityMessageQueue.dequeueItem] at h
        rw [← h.2]
        simp [PriorityMessageQueue.size]
      | nil =>
        simp [PriorityMessageQueue.dequeue, PriorityMessageQueue.dequeueItem] at h

/-- C7: drain-loop requeue policy.  When the dequeued message targets a
registered agent that is currently unhealthy, the message is requeued (net
queue size unchanged across the dequeue/requeue pair) if the agent's
`errorCount` is strictly below `maxRetries ?? 3`, and dropped (queue size
down by one, no requeue) once `errorCount` has reached `maxRetries`; in
both cases the step produces an outcome rather than raising an error to
the original enqueuer. -/
theorem c7_unhealthy_requeue_policy :
    ∀ (cfg : OrchestratorConfig) (agents : String → Bool)
      (states : String → Option AgentStateInfo) (q q' : PriorityMessageQueue)
      (now : Int) (routeOk : Bool) (msg : AgentMessage) (si : AgentStateInfo),
      q.dequeue = (some msg, q') →
      agents msg.targetAgent = true →
      states msg.targetAgent = some si →
      isAgentHealthy cfg states msg.targetAgent now = false →
      (si.errorCount < cfg.maxRetries.getD 3 →
        drainStep cfg agents states q now routeOk = (.requeued, q'.enqueue msg now) ∧
        (q'.enqueue msg now).size = q.size) ∧
      (cfg.maxRetries.getD 3 ≤ si.errorCount →
        drainStep cfg agents states q now routeOk = (.dropped, q') ∧
        q'.size + 1 = q.size) := by
  intro cfg agents states q q' now routeOk msg si hdq hreg hsi hunhealthy
  have hsz := dequeue_some_size q msg q' hdq
  have hne : ¬ q.size = 0 := by omega
  constructor
  · intro hlt
    refine ⟨?_, ?_⟩
    · simp [drainStep, hne, hdq, hreg, hsi, hunhealthy, hlt]
    · rw [enqueue_size]
      omega
  · intro hge
    refine ⟨?_, hsz⟩
    simp [drainStep, hne, hdq, hreg, hsi, hunhealthy, not_lt.mpr hge]

/-- The per-agent state record of an unhealthy agent (state ERROR) that
has not yet exhausted retries. -/
def siErrorFresh : AgentStateInfo :=
  { state := .ERROR, lastActiveTime := 0, errorCount := 0
    circuitBreaker := CircuitBreaker.init 0, healthMetrics := HealthMetrics.initState }

/-- Witness for C7: a message for the registered but unhealthy agent `a`
with `errorCount = 0 < 3` is requeued with the queue size unchanged. -/
theorem c7_unhealthy_requeue_policy_witness :
    drainStep cfgQueueOne (fun n => n == "a")
        (fun n => if n == "a" then some siErrorFresh else none)
        (PriorityMessageQueue.mk [] [] [mkItem (msgP none, 0)] false) 5 true
      = (.requeued,
          (PriorityMessageQueue.mk [] [] [] false).enqueue (msgP none) 5) ∧
    ((PriorityMessageQueue.mk [] [] [] false).enqueue (msgP none) 5).size
      = (PriorityMessageQueue.mk [] [] [mkItem (msgP none, 0)] false).size := by
  have h := c7_unhealthy_requeue_policy cfgQueueOne (fun n => n == "a")
    (fun n => if n == "a" then some siErrorFresh else none)
    (PriorityMessageQueue.mk [] [] [mkItem (msgP none, 0)] false)
    (PriorityMessageQueue.mk [] [] [] false) 5 true (msgP none) siErrorFresh
    (by decide) (by decide) (by decide) (by decide)
  exact h.1 (by decide)

/-- Observable trace of one `withRetry` call: how many times the operation
was invoked, the backoff delays slept between attempts, and whether the
call returned normally. -/
structure RetryTrace where
  attemptsMade : Nat
  delays : List Nat
  succeeded : Bool
deriving DecidableEq, Repr

/-- The body of the `for (let attempt = 0; attempt <= maxRetries; ...)`
loop of `withRetry` (utils.ts lines 190-219), recursing on the remaining
loop iterations `fuel`.  The async operation is abstracted by `succ`,
telling whether the invocation at a given attempt index resolves.  On the
final failing attempt (`attempt === maxRetries`) the loop throws the
OPERATION-site `AgentError`; otherwise it sleeps
`baseDelayMs * 2 ^ attempt` and retries. -/
def withRetryGo (succ : Nat → Bool) (maxRetries baseDelayMs attempt fuel : Nat) :
    RetryTrace :=
  match fuel with
  | 0 => { attemptsMade := 0, delays := [], succeeded := false }
  | f + 1 =>
    if succ attempt then { attemptsMade := 1, delays := [], succeeded := true }
    else if attempt = maxRetries then
      { attemptsMade := 1, delays := [], succeeded := false }
    else
      let rest := withRetryGo succ maxRetries baseDelayMs (attempt + 1) f
      { attemptsMade := rest.attemptsMade + 1
        delays := baseDelayMs * 2 ^ attempt :: rest.delays
        succeeded := rest.succeeded }

/-- `withRetry` (utils.ts lines 190-219): run the loop from attempt 0; the
loop performs at most `maxRetries + 1` iterations. -/
def withRetry (succ : Nat → Bool) (maxRetries baseDelayMs : Nat) : RetryTrace :=
  withRetryGo succ maxRetries baseDelayMs 0 (maxRetries + 1)

theorem withRetryGo_spec (succ : Nat → Bool) (mR bD : Nat) :
    ∀ (f a : Nat), a + f = mR + 1 → a ≤ mR →
      1 ≤ (withRetryGo succ mR bD a f).attemptsMade ∧
      (withRetryGo succ mR bD a f).attemptsMade ≤ f ∧
      ((withRetryGo succ mR bD a f).succeeded = false →
        (withRetryGo succ mR bD a f).attemptsMade = f) ∧
      (withRetryGo succ mR bD a f).delays
        = (List.range ((withRetryGo succ mR bD a f).attemptsMade - 1)).map
            (fun k => bD * 2 ^ (a + k)) := by
  intro f
  induction f with
  | zero => intro a hsum hle; omega
  | succ f ih =>
    intro a hsum hle
    by_cases hs : succ a
    · simp [withRetryGo, hs]
    · by_cases hm : a = mR
      · have hf : f = 0 := by omega
        subst hm
        subst hf
        simp [withRetryGo, hs]
      · have h1 : (a + 1) + f = mR + 1 := by omega
        have h2 : a + 1 ≤ mR := by omega
        obtain ⟨ih1, ih2, ih3, ih4⟩ := ih (a + 1) h1 h2
        simp only [withRetryGo, hs, hm, if_false, Bool.false_eq_true, ite_false]
        refine ⟨by omega, by omega, fun hfail => by rw [ih3 hfail], ?_⟩
        rw [ih4]
        have hatt : (withRetryGo succ mR bD (a + 1) f).attemptsMade + 1 - 1
            = ((withRetryGo succ mR bD (a + 1) f).attemptsMade - 1) + 1 := by
          omega
        rw [hatt, List.range_succ_eq_map, List.map_cons, List.map_map]
        have hfun : ((fun k => bD * 2 ^ (a + k)) ∘ Nat.succ)
            = (fun k => bD * 2 ^ (a + 1 + k)) := by
          funext k
          show bD * 2 ^ (a + (k + 1)) = bD * 2 ^ (a + 1 + k)
          have : a + (k + 1) = a + 1 + k := by omega
          rw [this]
        rw [hfun]
        simp

/-- Counterexample to C8: with `maxRetries = 0` the operation is invoked
once, not at most 0 times — the loop `for (attempt = 0; attempt <=
maxRetries; ...)` performs `maxRetries + 1` invocations. -/
theorem c8_counterexample_attempt_count :
    (withRetry (fun _ => false) 0 1000).attemptsMade = 1 ∧
    ¬ ((withRetry (fun _ => false) 0 1000).attemptsMade ≤ 0) := by
  decide

/-- C8 (amended): `withRetry` invokes the operation at least once and at
most `maxRetries + 1` times in total (the initial attempt plus up to
`maxRetries` retries); when it gives up with an error it has made exactly
`maxRetries + 1` invocations; and the delay slept before the retry that
follows failed attempt number k (counting from 0) is exactly
`baseDelay * 2 ^ k` milliseconds. -/
theorem c8_withRetry_attempts_and_backoff :
    ∀ (succ : Nat → Bool) (maxRetries baseDelayMs : Nat),
      1 ≤ (withRetry succ maxRetries baseDelayMs).attemptsMade ∧
      (withRetry succ maxRetries baseDelayMs).attemptsMade ≤ maxRetries + 1 ∧
      ((withRetry succ maxRetries baseDelayMs).succeeded = false →
        (withRetry succ maxRetries baseDelayMs).attemptsMade = maxRetries + 1) ∧
      (withRetry succ maxRetries baseDelayMs).delays
        = (List.range ((withRetry succ maxRetries baseDelayMs).attemptsMade - 1)).map
            (fun k => baseDelayMs * 2 ^ k) := by
  intro succ mR bD
  have h := withRetryGo_spec succ mR bD (mR + 1) 0 (by omega) (by omega)
  refine ⟨h.1, h.2.1, h.2.2.1, ?_⟩
  unfold withRetry
  rw [h.2.2.2]
  simp

/-- Witness for C8: an always-failing operation with `maxRetries = 2` and
`baseDelay = 1000` is invoked 3 times with backoff delays 1000 and 2000. -/
theorem c8_withRetry_attempts_and_backoff_witness :
    (withRetry (fun _ => false) 2 1000).succeeded = false ∧
    (withRetry (fun _ => false) 2 1000).attemptsMade = 3 ∧
    (withRetry (fun _ => false) 2 1000).delays = [1000, 2000] := by
  have h := c8_withRetry_attempts_and_backoff (fun _ => false) 2 1000
  refine ⟨by decide, h.2.2.1 (by decide), ?_⟩
  rw [h.2.2.2]
  decide

/-- The observable surface of an agent handle that `AgentRegistry` reads
when registering (`getState`, `getLastActiveTime`). -/
structure AgentHandle where
  name : String
  state : AgentState
  lastActiveTime : Int
deriving DecidableEq, Repr

/-- `AgentHealth` snapshot entries (AgentRegistry section of
OrchestratorAgent.ts, lines 298-302). -/
structure AgentHealth where
  name : String
  state : AgentState
  lastActive : Int
deriving DecidableEq, Repr

/-- The state of `AgentRegistry`: the name-keyed agent map (an association
list that the operations keep free of duplicate keys, so its length is the
map size), the cached health snapshots, and the configured capacity and
health-check interval. -/
structure AgentRegistry where
  agents : List (String × AgentHandle)
  lastHealthCheck : List (String × AgentHealth)
  maxAgents : Nat
  healthCheckInterval : Int
deriving DecidableEq, Repr

namespace AgentRegistry

/-- The private `AgentRegistry` constructor (lines 316-320):
`maxAgents ?? 10` and `healthCheckIntervalMs ?? 1000`. -/
def init (maxAgents? : Option Nat) (healthCheckIntervalMs? : Option Int) :
    AgentRegistry :=
  { agents := [], lastHealthCheck := []
    maxAgents := maxAgents?.getD 10
    healthCheckInterval := healthCheckIntervalMs?.getD 1000 }

/-- `registerAgent` (lines 372-391): reject a missing handle, then a
duplicate name, then a registry already at `maxAgents`; otherwise add the
agent and its health snapshot.  A rejected call returns only the error,
so the agent map of the caller is unchanged. -/
def registerAgent (r : AgentRegistry) (name : String)
    (agent : Option AgentHandle) : Except String AgentRegistry :=
  match agent with
  | none => .error "Invalid agent"
  | some a =>
    if (r.agents.lookup name).isSome then
      .error ("Agent with name " ++ name ++ " already exists")
    else if r.maxAgents ≤ r.agents.length then
      .error "Maximum number of agents reached"
    else
      .ok { r with
        agents := r.agents ++ [(name, a)]
        lastHealthCheck := r.lastHealthCheck
          ++ [(name, { name := name, state := a.state, lastActive := a.lastActiveTime })] }

end AgentRegistry

/-- C9: registry capacity and name uniqueness.  A registry constructed
with `maxAgents = 1` accepts one registration and rejects a second one
under a fresh name with the capacity error; and in every registry state,
registering under a name that is already present is rejected with the
name-collision error.  A rejected `registerAgent` returns only the error,
leaving the agent map unchanged. -/
theorem c9_registry_capacity_and_uniqueness :
    (∀ (n1 n2 : String) (a1 a2 : AgentHandle), n1 ≠ n2 →
      (Except.isOk ((AgentRegistry.init (some 1) none).registerAgent n1 (some a1))
        = true) ∧
      ((AgentRegistry.init (some 1) none).registerAgent n1 (some a1)).bind
          (fun r1 => r1.registerAgent n2 (some a2))
        = .error "Maximum number of agents reached")
  ∧ (∀ (r : AgentRegistry) (name : String) (a2 : AgentHandle),
      (r.agents.lookup name).isSome →
      r.registerAgent name (some a2)
        = .error ("Agent with name " ++ name ++ " already exists")) := by
  constructor
  · intro n1 n2 a1 a2 hne
    have hlk : ((AgentRegistry.init (some 1) none).agents.lookup n1).isSome = false := by
      simp [AgentRegistry.init]
    constructor
    · simp [AgentRegistry.registerAgent, AgentRegistry.init, Except.isOk, Except.toBool]
    · have hbeq : (n2 == n1) = false := by
        simp [hne.symm]
      simp [AgentRegistry.registerAgent, AgentRegistry.init, Except.bind,
        List.lookup, hbeq]
  · intro r name a2 hsome
    simp [AgentRegistry.registerAgent, hsome]

/-- Witness for C9 with names `a`, `b` and a concrete handle. -/
theorem c9_registry_capacity_and_uniqueness_witness :
    (Except.isOk ((AgentRegistry.init (some 1) none).registerAgent "a"
        (some (AgentHandle.mk "a" .IDLE 0))) = true) ∧
    (((AgentRegistry.init (some 1) none).registerAgent "a"
        (some (AgentHandle.mk "a" .IDLE 0))).bind
      (fun r1 => r1.registerAgent "b" (some (AgentHandle.mk "b" .IDLE 0)))
        = .error "Maximum number of agents reached") ∧
    ((AgentRegistry.mk [("a", AgentHandle.mk "a" .IDLE 0)] [] 10 1000).registerAgent
        "a" (some (AgentHandle.mk "a" .IDLE 5))
      = .error "Agent with name a already exists") := by
  have h1 := c9_registry_capacity_and_uniqueness.1 "a" "b"
    (AgentHandle.mk "a" .IDLE 0) (AgentHandle.mk "b" .IDLE 0) (by decide)
  have h2 := c9_registry_capacity_and_uniqueness.2
    (AgentRegistry.mk [("a", AgentHandle.mk "a" .IDLE 0)] [] 10 1000) "a"
    (AgentHandle.mk "a" .IDLE 5) (by decide)
  exact ⟨h1.1, h1.2, h2⟩
